import Mathlib

/-!
Shallow embedding of `pact/v3/pact.py`: the interaction-contract builder
(`Interaction` and its three variants), the contract aggregate (`Pact`) and
the mock-server lifecycle (`PactServer`).

Modelling conventions:
- Calls to the external engine (`pact.v3.ffi`) are recorded as an ordered
  trace of `FfiCall` events carried by each interaction / pact object.
- Python's keyword arguments that default to `None` become `Option` values.
- `bytes` payloads are modelled as `String`; filesystem paths as `String`.
- Python string builtins (`str.lower`, `str.upper`, `str.replace`,
  `str.startswith`) are modelled by structurally recursive functions over the
  character list so that they evaluate by kernel reduction.
- Exceptions (`ValueError`, `KeyError`, `RuntimeError`) become
  `Except String` results carrying the message.
-/

/-- The `pact.v3.ffi.InteractionPart` enum: the request or response half of a
two-part interaction. -/
inductive InteractionPart where
  | request
  | response
deriving DecidableEq, Repr

/-- Python `str.lower()` (ASCII case folding, as used on header names). -/
def pyLower (s : String) : String :=
  String.mk (s.data.map Char.toLower)

/-- Python `str.upper()` (ASCII case folding, as used on version strings). -/
def pyUpper (s : String) : String :=
  String.mk (s.data.map Char.toUpper)

/-- Python `s.replace(a, b)` specialised to a single-character pattern and
replacement, which is how `Pact.with_specification` uses it. -/
def replaceChar (a b : Char) (s : String) : String :=
  String.mk (s.data.map (fun c => if c = a then b else c))

/-- Helper for `pyStartsWith`: is the first list a prefix of the second? -/
def listIsPrefix : List Char → List Char → Bool
  | [], _ => true
  | _ :: _, [] => false
  | a :: as, b :: bs => a == b && listIsPrefix as bs

/-- Python `s.startswith(p)`. -/
def pyStartsWith (s p : String) : Bool :=
  listIsPrefix p.data s.data

/-- Stand-in for `json.dumps` applied to a flat string-keyed object (the
Python standard library is external to the repository; only the fact that a
dict is serialised to a single string matters to the embedding). -/
def jsonDumps (d : List (String × String)) : String :=
  "\x7b" ++ String.intercalate ", "
      (d.map (fun kv => "\x22" ++ kv.1 ++ "\x22: \x22" ++ kv.2 ++ "\x22"))
    ++ "\x7d"

/-- A Python argument typed `dict[str, Any] | str` (dicts modelled as
association lists in insertion order). -/
inductive StrOrDict where
  | str (s : String)
  | dict (d : List (String × String))
deriving DecidableEq, Repr

/-- One call made to the external engine (`pact.v3.ffi`) through an
interaction's handle, recorded with its arguments. -/
inductive FfiCall where
  | given (state : String)
  | givenWithParam (state name value : String)
  | givenWithParams (state params : String)
  | withBody (part : InteractionPart) (contentType : String) (body : Option String)
  | withBinaryFile (part : InteractionPart) (contentType : String) (body : Option String)
  | withMultipartFileV2 (part : InteractionPart) (partName : String)
      (path : Option String) (contentType : String) (boundary : Option String)
  | interactionTestName (name : String)
  | interactionContents (part : InteractionPart) (contentType contents : String)
  | withRequest (method path : String)
  | withHeaderV2 (part : InteractionPart) (name : String) (index : Nat) (value : String)
  | setHeader (part : InteractionPart) (name value : String)
  | withQueryParameterV2 (name : String) (index : Nat) (value : String)
  | responseStatus (status : Nat)
deriving DecidableEq, Repr

/-- The interaction part an engine call attaches data to, when it has one. -/
def FfiCall.part? : FfiCall → Option InteractionPart
  | .withBody p _ _ => some p
  | .withBinaryFile p _ _ => some p
  | .withMultipartFileV2 p _ _ _ _ => some p
  | .interactionContents p _ _ => some p
  | .withHeaderV2 p _ _ _ => some p
  | .setHeader p _ _ => some p
  | _ => none

/-- Boolean success test for `Except` results (a call that does not raise). -/
def isOkE : Except ε α → Bool
  | .ok _ => true
  | .error _ => false

/-- State of a `pact.v3.pact.HttpInteraction`.

`interaction_part` is the private `__interaction_part` attribute;
`request_indices` is the `defaultdict(int)` keyed by
`(InteractionPart, lowercased header name)`; `parameter_indices` is the
`defaultdict(int)` keyed by query-parameter name.  `calls` is the trace of
engine calls made through this interaction's handle. -/
structure HttpInteraction where
  handle : Nat
  description : String
  interaction_part : InteractionPart
  request_indices : InteractionPart × String → Nat
  parameter_indices : String → Nat
  calls : List FfiCall

/-- `HttpInteraction.__init__`: a fresh interaction registered with the engine
(the engine-assigned handle is passed in), starting in the Request part with
all repetition counters at zero. -/
def HttpInteraction.init (handle : Nat) (description : String) : HttpInteraction :=
  { handle := handle
    description := description
    interaction_part := InteractionPart.request
    request_indices := fun _ => 0
    parameter_indices := fun _ => 0
    calls := [] }

/-- `Interaction._parse_interaction_part` for the HTTP variant: an explicit
`"Request"`/`"Response"` argument wins; `None` falls back to the current part.
(The trailing `ValueError` branch of the source is unreachable under the
`Literal["Request", "Response", None]` annotation and is not modelled.) -/
def HttpInteraction._parse_interaction_part
    (i : HttpInteraction) (part : Option InteractionPart) : InteractionPart :=
  match part with
  | some p => p
  | none => i.interaction_part

/-- `Interaction.given` specialised to the HTTP variant (the method lives on
the abstract base class and is shared verbatim by all variants): the
`if`/`elif` chain over the `None`-ness of `name`, `value` and `parameters`. -/
def HttpInteraction.given (i : HttpInteraction) (state : String)
    (name value : Option String) (parameters : Option StrOrDict) :
    Except String HttpInteraction :=
  match name, value, parameters with
  | some n, some v, none =>
      .ok { i with calls := i.calls ++ [FfiCall.givenWithParam state n v] }
  | none, none, some (.dict d) =>
      .ok { i with calls := i.calls ++ [FfiCall.givenWithParams state (jsonDumps d)] }
  | none, none, some (.str s) =>
      .ok { i with calls := i.calls ++ [FfiCall.givenWithParams state s] }
  | none, none, none =>
      .ok { i with calls := i.calls ++ [FfiCall.given state] }
  | _, _, _ => .error "Invalid combination of arguments."

/-- `Interaction.with_body` for the HTTP variant. -/
def HttpInteraction.with_body (i : HttpInteraction) (body : Option String)
    (content_type : String) (part : Option InteractionPart) : HttpInteraction :=
  { i with calls := i.calls
      ++ [FfiCall.withBody (i._parse_interaction_part part) content_type body] }

/-- `Interaction.with_binary_file` for the HTTP variant. -/
def HttpInteraction.with_binary_file (i : HttpInteraction) (body : Option String)
    (content_type : String) (part : Option InteractionPart) : HttpInteraction :=
  { i with calls := i.calls
      ++ [FfiCall.withBinaryFile (i._parse_interaction_part part) content_type body] }

/-- `Interaction.with_multipart_file` for the HTTP variant. -/
def HttpInteraction.with_multipart_file (i : HttpInteraction) (part_name : String)
    (path : Option String) (content_type : String) (part : Option InteractionPart)
    (boundary : Option String) : HttpInteraction :=
  { i with calls := i.calls
      ++ [FfiCall.withMultipartFileV2 (i._parse_interaction_part part)
            part_name path content_type boundary] }

/-- `Interaction.test_name` for the HTTP variant. -/
def HttpInteraction.test_name (i : HttpInteraction) (name : String) : HttpInteraction :=
  { i with calls := i.calls ++ [FfiCall.interactionTestName name] }

/-- `Interaction.with_plugin_contents` for the HTTP variant: dict contents are
serialised with `json.dumps` first. -/
def HttpInteraction.with_plugin_contents (i : HttpInteraction) (contents : StrOrDict)
    (content_type : String) (part : Option InteractionPart) : HttpInteraction :=
  let c := match contents with
    | .dict d => jsonDumps d
    | .str s => s
  { i with calls := i.calls
      ++ [FfiCall.interactionContents (i._parse_interaction_part part) content_type c] }

/-- `HttpInteraction.with_request`. -/
def HttpInteraction.with_request (i : HttpInteraction) (method path : String) :
    HttpInteraction :=
  { i with calls := i.calls ++ [FfiCall.withRequest method path] }

/-- `HttpInteraction.with_header`: resolves the part, lowercases the name,
reads the repetition index for `(part, lowercased name)`, increments that
counter, and passes the original name with the read index to the engine. -/
def HttpInteraction.with_header (i : HttpInteraction) (name value : String)
    (part : Option InteractionPart) : HttpInteraction :=
  let interaction_part := i._parse_interaction_part part
  let name_lower := pyLower name
  let index := i.request_indices (interaction_part, name_lower)
  { i with
    request_indices := fun k =>
      if k = (interaction_part, name_lower) then index + 1 else i.request_indices k
    calls := i.calls ++ [FfiCall.withHeaderV2 interaction_part name index value] }

/-- `HttpInteraction.with_headers`: the `for name, value in headers` loop over
`with_header` (a dict argument contributes `headers.items()`, its pairs in
insertion order, so both the dict and iterable cases are one pair list). -/
def HttpInteraction.with_headers :
    HttpInteraction → List (String × String) → Option InteractionPart → HttpInteraction
  | i, [], _ => i
  | i, (name, value) :: rest, part =>
      HttpInteraction.with_headers (i.with_header name value part) rest part

/-- `HttpInteraction.set_header`: resolves the part and forwards name and
value directly to the engine's `set_header`. -/
def HttpInteraction.set_header (i : HttpInteraction) (name value : String)
    (part : Option InteractionPart) : HttpInteraction :=
  { i with calls := i.calls
      ++ [FfiCall.setHeader (i._parse_interaction_part part) name value] }

/-- `HttpInteraction.set_headers`: the `for name, value in headers` loop over
`set_header` (dict and iterable cases as in `with_headers`). -/
def HttpInteraction.set_headers :
    HttpInteraction → List (String × String) → Option InteractionPart → HttpInteraction
  | i, [], _ => i
  | i, (name, value) :: rest, part =>
      HttpInteraction.set_headers (i.set_header name value part) rest part

/-- `HttpInteraction.with_query_parameter`: per-name repetition index, read
then incremented. -/
def HttpInteraction.with_query_parameter (i : HttpInteraction) (name value : String) :
    HttpInteraction :=
  let index := i.parameter_indices name
  { i with
    parameter_indices := fun k =>
      if k = name then index + 1 else i.parameter_indices k
    calls := i.calls ++ [FfiCall.withQueryParameterV2 name index value] }

/-- `HttpInteraction.will_respond_with`: sets the response status with the
engine and flips the current part to Response. -/
def HttpInteraction.will_respond_with (i : HttpInteraction) (status : Nat) :
    HttpInteraction :=
  { i with
    interaction_part := InteractionPart.response
    calls := i.calls ++ [FfiCall.responseStatus status] }

/-- State of a `pact.v3.pact.AsyncMessageInteraction` (single-part: its
`_interaction_part` property is the constant `REQUEST`). -/
structure AsyncMessageInteraction where
  handle : Nat
  description : String
  calls : List FfiCall

/-- `AsyncMessageInteraction.__init__`. -/
def AsyncMessageInteraction.init (handle : Nat) (description : String) :
    AsyncMessageInteraction :=
  { handle := handle, description := description, calls := [] }

/-- `AsyncMessageInteraction._interaction_part`: always `REQUEST`. -/
def AsyncMessageInteraction._interaction_part (_ : AsyncMessageInteraction) :
    InteractionPart :=
  InteractionPart.request

/-- State of a `pact.v3.pact.SyncMessageInteraction`.  Its `__init__` stores
`__interaction_part = REQUEST` in a mutable attribute, mirrored here. -/
structure SyncMessageInteraction where
  handle : Nat
  description : String
  interaction_part : InteractionPart
  calls : List FfiCall

/-- `SyncMessageInteraction.__init__`. -/
def SyncMessageInteraction.init (handle : Nat) (description : String) :
    SyncMessageInteraction :=
  { handle := handle
    description := description
    interaction_part := InteractionPart.request
    calls := [] }

/-- `Interaction._parse_interaction_part` for the synchronous message
variant. -/
def SyncMessageInteraction._parse_interaction_part
    (i : SyncMessageInteraction) (part : Option InteractionPart) : InteractionPart :=
  match part with
  | some p => p
  | none => i.interaction_part

/-- `Interaction.given` specialised to the synchronous message variant. -/
def SyncMessageInteraction.given (i : SyncMessageInteraction) (state : String)
    (name value : Option String) (parameters : Option StrOrDict) :
    Except String SyncMessageInteraction :=
  match name, value, parameters with
  | some n, some v, none =>
      .ok { i with calls := i.calls ++ [FfiCall.givenWithParam state n v] }
  | none, none, some (.dict d) =>
      .ok { i with calls := i.calls ++ [FfiCall.givenWithParams state (jsonDumps d)] }
  | none, none, some (.str s) =>
      .ok { i with calls := i.calls ++ [FfiCall.givenWithParams state s] }
  | none, none, none =>
      .ok { i with calls := i.calls ++ [FfiCall.given state] }
  | _, _, _ => .error "Invalid combination of arguments."

/-- `Interaction.with_body` for the synchronous message variant. -/
def SyncMessageInteraction.with_body (i : SyncMessageInteraction)
    (body : Option String) (content_type : String) (part : Option InteractionPart) :
    SyncMessageInteraction :=
  { i with calls := i.calls
      ++ [FfiCall.withBody (i._parse_interaction_part part) content_type body] }

/-- `Interaction.with_binary_file` for the synchronous message variant. -/
def SyncMessageInteraction.with_binary_file (i : SyncMessageInteraction)
    (body : Option String) (content_type : String) (part : Option InteractionPart) :
    SyncMessageInteraction :=
  { i with calls := i.calls
      ++ [FfiCall.withBinaryFile (i._parse_interaction_part part) content_type body] }

/-- `Interaction.with_multipart_file` for the synchronous message variant. -/
def SyncMessageInteraction.with_multipart_file (i : SyncMessageInteraction)
    (part_name : String) (path : Option String) (content_type : String)
    (part : Option InteractionPart) (boundary : Option String) :
    SyncMessageInteraction :=
  { i with calls := i.calls
      ++ [FfiCall.withMultipartFileV2 (i._parse_interaction_part part)
            part_name path content_type boundary] }

/-- `Interaction.test_name` for the synchronous message variant. -/
def SyncMessageInteraction.test_name (i : SyncMessageInteraction) (name : String) :
    SyncMessageInteraction :=
  { i with calls := i.calls ++ [FfiCall.interactionTestName name] }

/-- `Interaction.with_plugin_contents` for the synchronous message variant. -/
def SyncMessageInteraction.with_plugin_contents (i : SyncMessageInteraction)
    (contents : StrOrDict) (content_type : String) (part : Option InteractionPart) :
    SyncMessageInteraction :=
  let c := match contents with
    | .dict d => jsonDumps d
    | .str s => s
  { i with calls := i.calls
      ++ [FfiCall.interactionContents (i._parse_interaction_part part) content_type c] }

/-- One public builder call on an `HttpInteraction` (the atomic mutators; the
bulk variants `with_headers`/`set_headers`/`with_query_parameters` are loops
over these and are treated separately). -/
inductive HttpOp where
  | given (state : String)
  | with_request (method path : String)
  | with_header (name value : String) (part : Option InteractionPart)
  | set_header (name value : String) (part : Option InteractionPart)
  | with_query_parameter (name value : String)
  | will_respond_with (status : Nat)
  | with_body (body : Option String) (content_type : String) (part : Option InteractionPart)
  | with_binary_file (body : Option String) (content_type : String) (part : Option InteractionPart)
  | with_multipart_file (part_name : String) (path : Option String)
      (content_type : String) (part : Option InteractionPart) (boundary : Option String)
  | test_name (name : String)
  | with_plugin_contents (contents : StrOrDict) (content_type : String)
      (part : Option InteractionPart)
deriving DecidableEq, Repr

/-- Apply one builder call to an `HttpInteraction` (the plain `given(state)`
call never reaches the `ValueError` branch, so the error case is the
identity). -/
def httpStep (i : HttpInteraction) : HttpOp → HttpInteraction
  | .given state =>
      match i.given state none none none with
      | .ok j => j
      | .error _ => i
  | .with_request method path => i.with_request method path
  | .with_header name value part => i.with_header name value part
  | .set_header name value part => i.set_header name value part
  | .with_query_parameter name value => i.with_query_parameter name value
  | .will_respond_with status => i.will_respond_with status
  | .with_body body ct part => i.with_body body ct part
  | .with_binary_file body ct part => i.with_binary_file body ct part
  | .with_multipart_file pn path ct part b => i.with_multipart_file pn path ct part b
  | .test_name name => i.test_name name
  | .with_plugin_contents c ct part => i.with_plugin_contents c ct part

/-- Run a sequence of builder calls left to right. -/
def httpRun (i : HttpInteraction) : List HttpOp → HttpInteraction
  | [] => i
  | op :: ops => httpRun (httpStep i op) ops

/-- Is this builder call `will_respond_with`? -/
def isWillRespondWith : HttpOp → Bool
  | .will_respond_with _ => true
  | _ => false

/-- Is this one of the part-taking builder calls, invoked with `part=None`? -/
def partNoneOp : HttpOp → Bool
  | .with_header _ _ none => true
  | .set_header _ _ none => true
  | .with_body _ _ none => true
  | .with_binary_file _ _ none => true
  | .with_multipart_file _ _ _ none _ => true
  | .with_plugin_contents _ _ none => true
  | _ => false

/-- The engine calls emitted by one builder call from state `i`. -/
def newCalls (i : HttpInteraction) (op : HttpOp) : List FfiCall :=
  (httpStep i op).calls.drop i.calls.length

/-- The repetition index recorded by an engine call, when the call is a
`with_header_v2` for part `p` and a name whose lowercase form is `lname`. -/
def headerIdx (p : InteractionPart) (lname : String) : FfiCall → Option Nat
  | .withHeaderV2 part name index _ =>
      if part = p ∧ pyLower name = lname then some index else none
  | _ => none

/-- All repetition indices recorded for `(p, lname)` in a call trace, in
order. -/
def headerIdxs (p : InteractionPart) (lname : String) (calls : List FfiCall) :
    List Nat :=
  calls.filterMap (headerIdx p lname)

/-- The header-counter invariant: for every part and lowercased name, the
indices already recorded in the trace are exactly `0, 1, …` up to the current
counter value. -/
def HeaderState (i : HttpInteraction) : Prop :=
  ∀ p lname, headerIdxs p lname i.calls = List.range (i.request_indices (p, lname))

/-- The specification's reading of `with_headers`: one `with_header` call per
pair, in iteration order. -/
def withHeaderCallSequence (i : HttpInteraction) (headers : List (String × String))
    (part : Option InteractionPart) : HttpInteraction :=
  httpRun i (headers.map (fun nv => HttpOp.with_header nv.1 nv.2 part))

/-- The specification's reading of `set_headers`: one `set_header` call per
pair, in iteration order. -/
def setHeaderCallSequence (i : HttpInteraction) (headers : List (String × String))
    (part : Option InteractionPart) : HttpInteraction :=
  httpRun i (headers.map (fun nv => HttpOp.set_header nv.1 nv.2 part))

/-- One public builder call on a `SyncMessageInteraction`: exactly the methods
the class exposes in the source (the base-class mutators; it defines no
response-status method of its own). -/
inductive SyncOp where
  | given (state : String)
  | with_body (body : Option String) (content_type : String) (part : Option InteractionPart)
  | with_binary_file (body : Option String) (content_type : String) (part : Option InteractionPart)
  | with_multipart_file (part_name : String) (path : Option String)
      (content_type : String) (part : Option InteractionPart) (boundary : Option String)
  | test_name (name : String)
  | with_plugin_contents (contents : StrOrDict) (content_type : String)
      (part : Option InteractionPart)
deriving DecidableEq, Repr

/-- Apply one builder call to a `SyncMessageInteraction`. -/
def syncStep (i : SyncMessageInteraction) : SyncOp → SyncMessageInteraction
  | .given state =>
      match i.given state none none none with
      | .ok j => j
      | .error _ => i
  | .with_body body ct part => i.with_body body ct part
  | .with_binary_file body ct part => i.with_binary_file body ct part
  | .with_multipart_file pn path ct part b => i.with_multipart_file pn path ct part b
  | .test_name name => i.test_name name
  | .with_plugin_contents c ct part => i.with_plugin_contents c ct part

/-- Run a sequence of builder calls on a `SyncMessageInteraction`. -/
def syncRun (i : SyncMessageInteraction) : List SyncOp → SyncMessageInteraction
  | [] => i
  | op :: ops => syncRun (syncStep i op) ops

/-- A `pact.v3.ffi.PactSpecification` value.  The enum lives in the engine
binding (`pact.v3.ffi`, outside `src/`); it is modelled by the normalized
member name it was looked up under. -/
structure PactSpecification where
  key : String
deriving DecidableEq, Repr

/-- Modelled from the spec: the engine's `PactSpecification` member lookup
(`pact.v3.ffi`, not under `src/`).  Per the spec the version string is
"case-insensitive … with an optional leading `v` and `.` separators
normalized to `_`" and unrecognized strings are a caller error, so a key is
recognized exactly when it is `V` followed by a non-empty run of digits and
underscores; anything else raises `KeyError`. -/
def specificationLookup (key : String) : Option PactSpecification :=
  match key.data with
  | 'V' :: rest =>
      if !rest.isEmpty && rest.all (fun c => c.isDigit || c == '_') then
        some { key := key }
      else none
  | _ => none

/-- One call made to the external engine through a pact's handle. -/
inductive PactCall where
  | withSpecification (version : PactSpecification)
  | usingPlugin (name : String) (version : Option String)
  | withPactMetadata (ns key value : String)
deriving DecidableEq, Repr

/-- State of a `pact.v3.pact.Pact`: consumer and provider names, the local
`_interactions: Set[Interaction]` attribute (modelled as a list of interaction
handles), the engine handle, and the trace of engine calls. -/
structure Pact where
  consumer : String
  provider : String
  interactions : List Nat
  handle : Nat
  calls : List PactCall
deriving DecidableEq, Repr

/-- `Pact.__init__`: validates that neither name is empty, initialises the
local interaction set to empty, and registers the pact with the engine (the
engine-assigned handle is passed in). -/
def Pact.init (consumer provider : String) (handle : Nat) : Except String Pact :=
  if consumer = "" then .error "Consumer name cannot be empty."
  else if provider = "" then .error "Provider name cannot be empty."
  else .ok { consumer := consumer
             provider := provider
             interactions := []
             handle := handle
             calls := [] }

/-- `Pact.with_specification`: a string argument is uppercased, has `.`
replaced by `_` and gains a leading `V` if it lacks one, then is looked up
among the `PactSpecification` members (`lookup` abstracts that enum lookup; a
failed lookup is Python's `KeyError`).  A pre-typed argument skips all of
that and is forwarded unchanged. -/
def Pact.with_specification (lookup : String → Option PactSpecification)
    (p : Pact) (version : String ⊕ PactSpecification) : Except String Pact :=
  match version with
  | .inl s =>
      let u := replaceChar '.' '_' (pyUpper s)
      let key := if pyStartsWith u "V" then u else "V" ++ u
      match lookup key with
      | some v => .ok { p with calls := p.calls ++ [PactCall.withSpecification v] }
      | none => .error ("KeyError: " ++ key)
  | .inr v => .ok { p with calls := p.calls ++ [PactCall.withSpecification v] }

/-- The object returned by `Pact.upon_receiving`: one of the three interaction
variants. -/
inductive InteractionVariant where
  | http (i : HttpInteraction)
  | async (i : AsyncMessageInteraction)
  | sync (i : SyncMessageInteraction)

/-- `Pact.upon_receiving`: constructs a fresh interaction of the requested
kind, registered with the engine through the pact's handle (`eng` is the
engine's fresh-handle counter; the new interaction takes handle `eng`).  The
pact object itself is returned unchanged — the source method touches no
attribute of `self`.  An unrecognized kind raises `ValueError`. -/
def Pact.upon_receiving (p : Pact) (description : String) (interaction : String)
    (eng : Nat) : Except String (InteractionVariant × Pact × Nat) :=
  if interaction = "HTTP" then
    .ok (InteractionVariant.http (HttpInteraction.init eng description), p, eng + 1)
  else if interaction = "Async" then
    .ok (InteractionVariant.async (AsyncMessageInteraction.init eng description), p, eng + 1)
  else if interaction = "Sync" then
    .ok (InteractionVariant.sync (SyncMessageInteraction.init eng description), p, eng + 1)
  else .error ("Invalid interaction type: " ++ interaction)

/-- Run a sequence of `upon_receiving` calls (description, kind), threading
the pact and the engine counter; a `ValueError` aborts that call only. -/
def uponReceivingSeq (p : Pact) (eng : Nat) :
    List (String × String) → Pact × Nat
  | [] => (p, eng)
  | (d, kind) :: rest =>
      match p.upon_receiving d kind eng with
      | .ok (_, p2, eng2) => uponReceivingSeq p2 eng2 rest
      | .error _ => uponReceivingSeq p eng rest

/-- Handle of a running mock server, as returned by the engine's
`create_mock_server_for_transport`; exposes the resolved port. -/
structure PactServerHandle where
  port : Nat
deriving DecidableEq, Repr

/-- State of a `pact.v3.pact.PactServer`: the constructor arguments plus the
optional server handle (`None` until `__enter__`, cleared by `__exit__`). -/
structure PactServer where
  _host : String
  _port : Nat
  _transport : String
  _transport_config : Option String
  _pact_handle : Nat
  _handle : Option PactServerHandle
deriving DecidableEq, Repr

/-- `PactServer.__init__`: constructed inert, with no server handle. -/
def PactServer.init (pact_handle : Nat) (host : String) (port : Nat)
    (transport : String) (transport_config : Option String) : PactServer :=
  { _host := host
    _port := port
    _transport := transport
    _transport_config := transport_config
    _pact_handle := pact_handle
    _handle := none }

/-- `PactServer.port`: the resolved port from the held handle, or `0` when no
handle is held. -/
def PactServer.port (s : PactServer) : Nat :=
  match s._handle with
  | some h => h.port
  | none => 0

/-- `PactServer.__enter__`: stores the handle returned by the engine's
`create_mock_server_for_transport` (passed in as `h`). -/
def PactServer.enter (s : PactServer) (h : PactServerHandle) : PactServer :=
  { s with _handle := some h }

/-- `PactServer.__exit__`: drops the held handle if one is held; the exception
information (`exc`) is ignored, as in the source. -/
def PactServer.exit (s : PactServer) (_exc : Option String) : PactServer :=
  match s._handle with
  | some _ => { s with _handle := none }
  | none => s

/-- The Python `with` statement applied to a `PactServer`: `__enter__`, then
the body (which may raise), then `__exit__` on every exit path — normal or
exceptional — with the body's outcome propagated to the caller. -/
def withServer (s : PactServer) (h : PactServerHandle)
    (body : PactServer → Except String α) : Except String α × PactServer :=
  let active := s.enter h
  let r := body active
  (r, active.exit (match r with | .ok _ => none | .error e => some e))

/-- An engine-side provider-state table: an ordered list of
(state, parameters) entries. -/
def ProviderStatesTable : Type := List (String × List (String × String))

/-- Insert or replace one parameter key in place (later values win). -/
def upsert (l : List (String × String)) (k v : String) : List (String × String) :=
  match l with
  | [] => [(k, v)]
  | (k0, v0) :: rest => if k0 = k then (k0, v) :: rest else (k0, v0) :: upsert rest k v

/-- Merge a batch of parameters into an existing set, later values winning. -/
def upsertAll (old new : List (String × String)) : List (String × String) :=
  new.foldl (fun acc kv => upsert acc kv.1 kv.2) old

/-- Modelled from the spec: the engine's provider-state registration
(`pact.v3.ffi`, not under `src/`) — "Repeated calls with the same `state`
merge parameters (later values for the same parameter key win)"; a new state
appends an entry, keeping the order of first appearance. -/
def registerParams (state : String) (kvs : List (String × String)) :
    ProviderStatesTable → ProviderStatesTable
  | [] => [(state, kvs)]
  | (s, old) :: rest =>
      if s = state then (s, upsertAll old kvs) :: rest
      else (s, old) :: registerParams state kvs rest

/-- Modelled from the spec: the engine's `given_with_param` (`pact.v3.ffi`,
not under `src/`): registers the single parameter `name = value` under
`state`. -/
def engineGivenWithParam (state name value : String) (ps : ProviderStatesTable) :
    ProviderStatesTable :=
  registerParams state [(name, value)] ps

/-- Modelled from the spec: the engine's `given_with_params` (`pact.v3.ffi`,
not under `src/`): parses its string argument as a JSON object (the parser is
abstracted as `parse`); per the spec, "if a string that is not valid JSON, it
is treated as a literal parameter value under key `value` rather than
rejected". -/
def engineGivenWithParams (parse : String → Option (List (String × String)))
    (state params : String) (ps : ProviderStatesTable) : ProviderStatesTable :=
  match parse params with
  | some kvs => registerParams state kvs ps
  | none => registerParams state [("value", params)] ps

theorem drop_self_append (l₁ l₂ : List α) : (l₁ ++ l₂).drop l₁.length = l₂ := by
  simp

theorem headerIdxs_append (p : InteractionPart) (lname : String)
    (l : List FfiCall) (e : FfiCall) :
    headerIdxs p lname (l ++ [e])
      = headerIdxs p lname l ++ (headerIdx p lname e).toList := by
  cases h : headerIdx p lname e <;>
    simp [headerIdxs, List.filterMap_append, h]

theorem headerState_init (h : Nat) (d : String) :
    HeaderState (HttpInteraction.init h d) := by
  intro p lname
  simp [HttpInteraction.init, headerIdxs]

theorem headerState_step (i : HttpInteraction) (op : HttpOp) (hI : HeaderState i) :
    HeaderState (httpStep i op) := by
  intro p lname
  cases op with
  | given state =>
      simpa [httpStep, HttpInteraction.given, headerIdxs_append, headerIdx]
        using hI p lname
  | with_request method path =>
      simpa [httpStep, HttpInteraction.with_request, headerIdxs_append, headerIdx]
        using hI p lname
  | with_header name value part =>
      have hmain := hI p lname
      by_cases hc : i._parse_interaction_part part = p ∧ pyLower name = lname
      · obtain ⟨h1, h2⟩ := hc
        subst h1
        subst h2
        simp [httpStep, HttpInteraction.with_header, headerIdxs_append, headerIdx,
          hmain, List.range_succ]
      · have hne : ((p, lname) : InteractionPart × String)
            ≠ (i._parse_interaction_part part, pyLower name) := by
          intro hEq
          apply hc
          have h1 := congrArg Prod.fst hEq
          have h2 := congrArg Prod.snd hEq
          exact ⟨h1.symm, h2.symm⟩
        simp [httpStep, HttpInteraction.with_header, headerIdxs_append, headerIdx,
          hc, hne, hmain]
  | set_header name value part =>
      simpa [httpStep, HttpInteraction.set_header, headerIdxs_append, headerIdx]
        using hI p lname
  | with_query_parameter name value =>
      simpa [httpStep, HttpInteraction.with_query_parameter, headerIdxs_append,
        headerIdx] using hI p lname
  | will_respond_with status =>
      simpa [httpStep, HttpInteraction.will_respond_with, headerIdxs_append,
        headerIdx] using hI p lname
  | with_body body ct part =>
      simpa [httpStep, HttpInteraction.with_body, headerIdxs_append, headerIdx]
        using hI p lname
  | with_binary_file body ct part =>
      simpa [httpStep, HttpInteraction.with_binary_file, headerIdxs_append,
        headerIdx] using hI p lname
  | with_multipart_file pn path ct part b =>
      simpa [httpStep, HttpInteraction.with_multipart_file, headerIdxs_append,
        headerIdx] using hI p lname
  | test_name name =>
      simpa [httpStep, HttpInteraction.test_name, headerIdxs_append, headerIdx]
        using hI p lname
  | with_plugin_contents c ct part =>
      simpa [httpStep, HttpInteraction.with_plugin_contents, headerIdxs_append,
        headerIdx] using hI p lname

theorem headerState_run (i : HttpInteraction) (ops : List HttpOp)
    (h : HeaderState i) : HeaderState (httpRun i ops) := by
  induction ops generalizing i with
  | nil => exact h
  | cons op rest ih => exact ih (httpStep i op) (headerState_step i op h)

theorem interaction_part_run (i : HttpInteraction) (ops : List HttpOp) :
    (httpRun i ops).interaction_part
      = if ops.any isWillRespondWith then InteractionPart.response
        else i.interaction_part := by
  induction ops generalizing i with
  | nil => simp [httpRun]
  | cons op rest ih =>
      cases op <;>
        simp [httpRun, httpStep, HttpInteraction.given, HttpInteraction.with_request,
          HttpInteraction.with_header, HttpInteraction.set_header,
          HttpInteraction.with_query_parameter, HttpInteraction.will_respond_with,
          HttpInteraction.with_body, HttpInteraction.with_binary_file,
          HttpInteraction.with_multipart_file, HttpInteraction.test_name,
          HttpInteraction.with_plugin_contents, isWillRespondWith, ih]

theorem newCalls_step (i : HttpInteraction) (op : HttpOp)
    (hop : partNoneOp op = true) :
    (newCalls i op).map FfiCall.part? = [some i.interaction_part] := by
  cases op with
  | given state => simp [partNoneOp] at hop
  | with_request method path => simp [partNoneOp] at hop
  | with_header name value part =>
      cases part with
      | none =>
          simp [newCalls, httpStep, HttpInteraction.with_header,
            HttpInteraction._parse_interaction_part, FfiCall.part?, drop_self_append]
      | some q => simp [partNoneOp] at hop
  | set_header name value part =>
      cases part with
      | none =>
          simp [newCalls, httpStep, HttpInteraction.set_header,
            HttpInteraction._parse_interaction_part, FfiCall.part?, drop_self_append]
      | some q => simp [partNoneOp] at hop
  | with_query_parameter name value => simp [partNoneOp] at hop
  | will_respond_with status => simp [partNoneOp] at hop
  | with_body body ct part =>
      cases part with
      | none =>
          simp [newCalls, httpStep, HttpInteraction.with_body,
            HttpInteraction._parse_interaction_part, FfiCall.part?, drop_self_append]
      | some q => simp [partNoneOp] at hop
  | with_binary_file body ct part =>
      cases part with
      | none =>
          simp [newCalls, httpStep, HttpInteraction.with_binary_file,
            HttpInteraction._parse_interaction_part, FfiCall.part?, drop_self_append]
      | some q => simp [partNoneOp] at hop
  | with_multipart_file pn path ct part b =>
      cases part with
      | none =>
          simp [newCalls, httpStep, HttpInteraction.with_multipart_file,
            HttpInteraction._parse_interaction_part, FfiCall.part?, drop_self_append]
      | some q => simp [partNoneOp] at hop
  | test_name name => simp [partNoneOp] at hop
  | with_plugin_contents c ct part =>
      cases part with
      | none =>
          simp [newCalls, httpStep, HttpInteraction.with_plugin_contents,
            HttpInteraction._parse_interaction_part, FfiCall.part?, drop_self_append]
      | some q => simp [partNoneOp] at hop

theorem sync_part_run (i : SyncMessageInteraction) (ops : List SyncOp) :
    (syncRun i ops).interaction_part = i.interaction_part := by
  induction ops generalizing i with
  | nil => rfl
  | cons op rest ih =>
      cases op <;>
        simp [syncRun, syncStep, SyncMessageInteraction.given,
          SyncMessageInteraction.with_body, SyncMessageInteraction.with_binary_file,
          SyncMessageInteraction.with_multipart_file, SyncMessageInteraction.test_name,
          SyncMessageInteraction.with_plugin_contents, ih]

theorem with_headers_as_sequence (i : HttpInteraction)
    (headers : List (String × String)) (part : Option InteractionPart) :
    i.with_headers headers part = withHeaderCallSequence i headers part := by
  induction headers generalizing i with
  | nil => rfl
  | cons nv rest ih =>
      obtain ⟨n, v⟩ := nv
      simp [HttpInteraction.with_headers, withHeaderCallSequence, httpRun, httpStep]
      exact ih (i.with_header n v part)

theorem set_headers_as_sequence (i : HttpInteraction)
    (headers : List (String × String)) (part : Option InteractionPart) :
    i.set_headers headers part = setHeaderCallSequence i headers part := by
  induction headers generalizing i with
  | nil => rfl
  | cons nv rest ih =>
      obtain ⟨n, v⟩ := nv
      simp [HttpInteraction.set_headers, setHeaderCallSequence, httpRun, httpStep]
      exact ih (i.set_header n v part)

theorem upon_receiving_pact_unchanged (p : Pact) (d kind : String) (eng : Nat)
    (r : InteractionVariant × Pact × Nat)
    (h : p.upon_receiving d kind eng = Except.ok r) : r.2.1 = p := by
  unfold Pact.upon_receiving at h
  split_ifs at h <;> (rw [Except.ok.injEq] at h; subst h; rfl)

theorem uponReceivingSeq_pact (p : Pact) (eng : Nat)
    (ds : List (String × String)) : (uponReceivingSeq p eng ds).1 = p := by
  induction ds generalizing p eng with
  | nil => rfl
  | cons dk rest ih =>
      obtain ⟨d, kind⟩ := dk
      show (match p.upon_receiving d kind eng with
        | .ok (_, p2, eng2) => uponReceivingSeq p2 eng2 rest
        | .error _ => uponReceivingSeq p eng rest).1 = p
      cases h : p.upon_receiving d kind eng with
      | ok r =>
          obtain ⟨iv, p2, e2⟩ := r
          have hp : p2 = p := upon_receiving_pact_unchanged p d kind eng (iv, p2, e2) h
          simpa [ih] using hp
      | error msg => exact ih p eng

/-- C1: an HTTP interaction begins in the Request part; after
`will_respond_with(status)` the current part is Response; every part-taking
call made with `part=None` emits its engine call against this resolved part
(Response exactly when some `will_respond_with` has been made, Request
otherwise). -/
theorem c1_http_part_resolution (h : Nat) (d : String) (ops : List HttpOp) :
    ((httpRun (HttpInteraction.init h d) ops).interaction_part
        = if ops.any isWillRespondWith then InteractionPart.response
          else InteractionPart.request)
  ∧ (∀ op, partNoneOp op = true →
      (newCalls (httpRun (HttpInteraction.init h d) ops) op).map FfiCall.part?
        = [some (if ops.any isWillRespondWith then InteractionPart.response
                 else InteractionPart.request)]) := by
  have hpart := interaction_part_run (HttpInteraction.init h d) ops
  constructor
  · simpa [HttpInteraction.init] using hpart
  · intro op hop
    rw [newCalls_step _ op hop, hpart]
    simp [HttpInteraction.init]

/-- Witness for C1: after `will_respond_with(200)`, a `with_header` call with
no explicit part places the header on the Response. -/
theorem c1_http_part_resolution_witness :
    (newCalls (httpRun (HttpInteraction.init 0 "d") [HttpOp.will_respond_with 200])
        (HttpOp.with_header "X" "v" none)).map FfiCall.part?
      = [some InteractionPart.response] := by
  have h := (c1_http_part_resolution 0 "d" [HttpOp.will_respond_with 200]).2
      (HttpOp.with_header "X" "v" none) (by decide)
  exact h.trans (by decide)

/-- C2: over any sequence of builder calls, the `with_header` repetition
indices recorded for a given part and lowercased header name are exactly
`0, 1, 2, …` in call order up to the current counter value — each `with_header`
call for that key records the next index, independent of other header names
and of the other part, and the counter is never reset. -/
theorem c2_with_header_index_discipline (h : Nat) (d : String) (ops : List HttpOp)
    (p : InteractionPart) (lname : String) :
    headerIdxs p lname (httpRun (HttpInteraction.init h d) ops).calls
      = List.range
          ((httpRun (HttpInteraction.init h d) ops).request_indices (p, lname)) :=
  headerState_run (HttpInteraction.init h d) ops (headerState_init h d) p lname

/-- C3: `given(state, name=, value=, parameters=)` succeeds exactly for the
three sanctioned argument shapes — all three `None`; `name` and `value` given
with `parameters` `None`; `parameters` given with `name` and `value` `None` —
and every other combination raises
`ValueError("Invalid combination of arguments.")`. -/
theorem c3_given_argument_shapes (i : HttpInteraction) (state : String)
    (name value : Option String) (parameters : Option StrOrDict) :
    (isOkE (i.given state name value parameters) = true ↔
       ((name = none ∧ value = none ∧ parameters = none)
         ∨ (name ≠ none ∧ value ≠ none ∧ parameters = none)
         ∨ (name = none ∧ value = none ∧ parameters ≠ none)))
  ∧ (isOkE (i.given state name value parameters) = true
      ∨ i.given state name value parameters
          = Except.error "Invalid combination of arguments.") := by
  rcases name with _ | n <;> rcases value with _ | v <;>
      rcases parameters with _ | (s | dd) <;>
    simp [HttpInteraction.given, isOkE]

/-- C4: a non-JSON string passed as `parameters` is not rejected: the source
forwards it unchanged to the engine's `given_with_params`, and the
(spec-modelled) engine registers it as the single literal parameter
`value = s`, exactly as `given(state, name="value", value=s)` would. -/
theorem c4_given_nonjson_params_fallback
    (parse : String → Option (List (String × String))) (state s : String)
    (ps : ProviderStatesTable) (i : HttpInteraction)
    (hparse : parse s = none) :
    (engineGivenWithParams parse state s ps
        = engineGivenWithParam state "value" s ps)
  ∧ (i.given state none none (some (StrOrDict.str s))
      = Except.ok { i with calls := i.calls ++ [FfiCall.givenWithParams state s] }) := by
  constructor
  · simp [engineGivenWithParams, engineGivenWithParam, hparse]
  · rfl

/-- Witness for C4 at a concrete non-JSON string. -/
theorem c4_given_nonjson_params_fallback_witness :
    engineGivenWithParams (fun _ => none) "a user exists" "not json" []
      = engineGivenWithParam "a user exists" "value" "not json" [] :=
  (c4_given_nonjson_params_fallback (fun _ => none) "a user exists" "not json"
      [] (HttpInteraction.init 0 "d") rfl).1

/-- Counterexample to C5: two `set_header("X-Foo", …)` calls leave the
`(Request, "x-foo")` repetition counter at 0 and emit indexless `set_header`
engine calls, whereas two `with_header` calls with the same arguments advance
the counter to 2 — so `set_header` does not apply `with_header`'s
repetition-index discipline. -/
theorem c5_set_header_counterexample :
    ((httpRun (HttpInteraction.init 0 "d")
        [HttpOp.set_header "X-Foo" "bar" none,
         HttpOp.set_header "X-Foo" "baz" none]).request_indices
          (InteractionPart.request, "x-foo") = 0)
  ∧ ((httpRun (HttpInteraction.init 0 "d")
        [HttpOp.with_header "X-Foo" "bar" none,
         HttpOp.with_header "X-Foo" "baz" none]).request_indices
          (InteractionPart.request, "x-foo") = 2)
  ∧ ((httpRun (HttpInteraction.init 0 "d")
        [HttpOp.set_header "X-Foo" "bar" none,
         HttpOp.set_header "X-Foo" "baz" none]).calls
      = [FfiCall.setHeader InteractionPart.request "X-Foo" "bar",
         FfiCall.setHeader InteractionPart.request "X-Foo" "baz"]) := by
  refine ⟨rfl, ?_, rfl⟩
  decide

/-- C5 (amended): `set_header` resolves the part exactly as `with_header`
does, but forwards the header name and value to the engine unchanged —
computing no repetition index, leaving every repetition counter untouched,
and applying no JSON-matcher processing to the value. -/
theorem c5_set_header_amended (i : HttpInteraction) (name value : String)
    (part : Option InteractionPart) :
    ((i.set_header name value part).request_indices = i.request_indices)
  ∧ ((i.set_header name value part).parameter_indices = i.parameter_indices)
  ∧ ((i.set_header name value part).interaction_part = i.interaction_part)
  ∧ ((i.set_header name value part).calls
      = i.calls ++ [FfiCall.setHeader (i._parse_interaction_part part) name value]) :=
  ⟨rfl, rfl, rfl, rfl⟩

/-- Counterexample to C6: exercising every operation the synchronous message
variant exposes (one of each, all with `part=None`) leaves its current part
at Request — no operation flips it to Response — whereas the HTTP variant's
`will_respond_with` does flip the part. -/
theorem c6_sync_part_counterexample :
    ((syncRun (SyncMessageInteraction.init 0 "d")
        [SyncOp.given "s",
         SyncOp.with_body (some "b") "text/plain" none,
         SyncOp.with_binary_file none "application/octet-stream" none,
         SyncOp.with_multipart_file "p" none "application/octet-stream" none none,
         SyncOp.test_name "t",
         SyncOp.with_plugin_contents (StrOrDict.str "c") "text/plain" none]).interaction_part
      = InteractionPart.request)
  ∧ (((HttpInteraction.init 0 "d").will_respond_with 200).interaction_part
      = InteractionPart.response) :=
  ⟨rfl, rfl⟩

/-- C6 (amended): the synchronous message interaction is two-part — explicit
part arguments select either half — and begins in the Request part, but no
operation it exposes ever flips its current part: after any call sequence the
resolved part is still Request, so part-less calls always target the
Request. -/
theorem c6_sync_part_amended (h : Nat) (d : String) (ops : List SyncOp) :
    ((syncRun (SyncMessageInteraction.init h d) ops).interaction_part
        = InteractionPart.request)
  ∧ (∀ b ct, ((syncRun (SyncMessageInteraction.init h d) ops).with_body b ct none).calls
        = (syncRun (SyncMessageInteraction.init h d) ops).calls
          ++ [FfiCall.withBody InteractionPart.request ct b])
  ∧ (∀ b ct, ((syncRun (SyncMessageInteraction.init h d) ops).with_body b ct
          (some InteractionPart.response)).calls
        = (syncRun (SyncMessageInteraction.init h d) ops).calls
          ++ [FfiCall.withBody InteractionPart.response ct b]) := by
  have hreq : (syncRun (SyncMessageInteraction.init h d) ops).interaction_part
      = InteractionPart.request := by
    simpa [SyncMessageInteraction.init]
      using sync_part_run (SyncMessageInteraction.init h d) ops
  refine ⟨hreq, fun b ct => ?_, fun b ct => rfl⟩
  simp [SyncMessageInteraction.with_body,
    SyncMessageInteraction._parse_interaction_part, hreq]

/-- C7: `with_specification` forwards a pre-typed version unchanged; a version
string is uppercased with `.` replaced by `_` and an optional leading `V`
supplied, so `"v3.0.0"` and `"3_0_0"` resolve to the identical version value
under any member lookup; under the spec-modelled member registry `"v3.0.0"`
succeeds as `V3_0_0` and `"bogus"` raises a `KeyError`. -/
theorem c7_with_specification_normalization (p : Pact) :
    (∀ lookup, Pact.with_specification lookup p (Sum.inl "v3.0.0")
        = Pact.with_specification lookup p (Sum.inl "3_0_0"))
  ∧ (Pact.with_specification specificationLookup p (Sum.inl "v3.0.0")
      = Except.ok { p with calls := p.calls
          ++ [PactCall.withSpecification { key := "V3_0_0" }] })
  ∧ (Pact.with_specification specificationLookup p (Sum.inl "bogus")
      = Except.error "KeyError: VBOGUS")
  ∧ (∀ lookup v, Pact.with_specification lookup p (Sum.inr v)
      = Except.ok { p with calls := p.calls ++ [PactCall.withSpecification v] }) :=
  ⟨fun _ => rfl, rfl, rfl, fun _ _ => rfl⟩

/-- C8: a `PactServer` reads port 0 whenever no handle is held — at
construction and after any `__exit__` — and `__exit__` clears the held handle
on every exit path of the `with` block, exceptional exits included; exiting
with no handle held is a no-op, so release is idempotent. -/
theorem c8_server_lifecycle {α : Type} (ph : Nat) (host : String) (port : Nat)
    (tr : String) (cfg : Option String) (hnd : PactServerHandle)
    (body : PactServer → Except String α) (exc exc2 : Option String)
    (s : PactServer) :
    ((PactServer.init ph host port tr cfg).port = 0)
  ∧ ((s.exit exc)._handle = none)
  ∧ ((s.exit exc).port = 0)
  ∧ ((withServer (PactServer.init ph host port tr cfg) hnd body).2._handle = none)
  ∧ ((withServer (PactServer.init ph host port tr cfg) hnd body).2.port = 0)
  ∧ ((s.exit exc).exit exc2 = s.exit exc)
  ∧ (s._handle = none → s.exit exc = s) := by
  have hnone : (s.exit exc)._handle = none := by
    cases h : s._handle <;> simp [PactServer.exit, h]
  refine ⟨rfl, hnone, ?_, rfl, rfl, ?_, ?_⟩
  · simp [PactServer.port, hnone]
  · cases h : s._handle <;> simp [PactServer.exit, h]
  · intro h
    simp [PactServer.exit, h]

/-- Witness for C8: exiting a server that was never entered is a no-op. -/
theorem c8_server_lifecycle_witness :
    PactServer.exit (PactServer.init 0 "localhost" 0 "http" none) none
      = PactServer.init 0 "localhost" 0 "http" none :=
  (c8_server_lifecycle 0 "localhost" 0 "http" none { port := 1234 }
      (fun _ => Except.ok (0 : Nat)) none none
      (PactServer.init 0 "localhost" 0 "http" none)).2.2.2.2.2.2 rfl

/-- C9: `with_headers` is observationally equivalent to one `with_header`
call per (name, value) pair in iteration order (a dict contributing its items
in insertion order), and `set_headers` likewise to the corresponding
`set_header` sequence. -/
theorem c9_bulk_headers_refinement (i : HttpInteraction)
    (headers : List (String × String)) (part : Option InteractionPart) :
    (i.with_headers headers part = withHeaderCallSequence i headers part)
  ∧ (i.set_headers headers part = setHeaderCallSequence i headers part) :=
  ⟨with_headers_as_sequence i headers part, set_headers_as_sequence i headers part⟩

/-- C10: `upon_receiving` returns the pact unchanged — the new interaction is
registered only with the engine — and the pact's local `_interactions` set,
empty at construction, stays empty across any sequence of `upon_receiving`
calls. -/
theorem c10_upon_receiving_frame (p : Pact) (d kind : String) (eng : Nat)
    (ds : List (String × String)) (consumer provider : String) (h0 : Nat)
    (p0 : Pact) :
    (∀ r, p.upon_receiving d kind eng = Except.ok r → r.2.1 = p)
  ∧ ((uponReceivingSeq p eng ds).1 = p)
  ∧ (Pact.init consumer provider h0 = Except.ok p0 → p0.interactions = [])
  ∧ (Pact.init consumer provider h0 = Except.ok p0 →
      (uponReceivingSeq p0 eng ds).1.interactions = []) := by
  have hinit : Pact.init consumer provider h0 = Except.ok p0 →
      p0.interactions = [] := by
    intro h
    unfold Pact.init at h
    split_ifs at h <;> simp_all
    exact congrArg Pact.interactions h.symm
  refine ⟨fun r hr => upon_receiving_pact_unchanged p d kind eng r hr,
    uponReceivingSeq_pact p eng ds, hinit, fun h => ?_⟩
  rw [uponReceivingSeq_pact p0 eng ds]
  exact hinit h

/-- Witness for C10: a freshly constructed pact still has an empty local
interaction set after an HTTP `upon_receiving` call. -/
theorem c10_upon_receiving_frame_witness :
    (uponReceivingSeq
        { consumer := "c", provider := "p", interactions := [], handle := 0,
          calls := [] }
        1 [("a request", "HTTP")]).1.interactions = [] :=
  (c10_upon_receiving_frame
      { consumer := "c", provider := "p", interactions := [], handle := 0,
        calls := [] }
      "a request" "HTTP" 1 [("a request", "HTTP")] "c" "p" 0
      { consumer := "c", provider := "p", interactions := [], handle := 0,
        calls := [] }).2.2.2 rfl
